import Mathlib

/-!
Verification of the caresync queue controller and socket broadcaster.

The controller operations (getDoctorQueue, getPatientQueuePosition,
getQueueTotal, deleteQueueEntry, createFutureAppointment,
markQueueEntryPending) are embedded as pure state transformers over an
explicit database state.  The Prisma store is modelled as lists of
records; each `findMany` / `deleteMany` / `updateMany` call becomes
filter / filter-out / conditional-map over those lists, with Prisma's
`orderBy position asc` rendered as an insertion sort.  JavaScript value
coercions that the controller performs on request fields
(`Number(x)`, `new Date(x).toISOString()`) are modelled explicitly on a
small JavaScript value type, because the controller mixes coerced and
uncoerced comparisons.
-/

namespace CareSync

/-- A JavaScript value as it arrives in a request (params, query or JSON
body): a number, a string, the number NaN, or undefined (missing field). -/
inductive JsVal where
  | num (n : Int)
  | str (s : String)
  | nan
  | undef
deriving DecidableEq, Repr

/-- Modelled JavaScript `Number(x)` coercion, restricted to the values the
controllers actually receive: numbers pass through, the empty string gives 0,
a string of digits gives that integer, any other string (and undefined)
gives NaN. -/
def jsNumber : JsVal → JsVal
  | JsVal.num n => JsVal.num n
  | JsVal.nan => JsVal.nan
  | JsVal.undef => JsVal.nan
  | JsVal.str s =>
      if s.data = [] then JsVal.num 0
      else if s.data.all Char.isDigit then
        JsVal.num (Int.ofNat (s.data.foldl (fun n c => n * 10 + (c.toNat - 48)) 0))
      else JsVal.nan

/-- Equality as used by a Prisma `where` filter clause: numbers compare by
value, strings by value, NaN and undefined match nothing (NaN is not equal
to itself), and values of different runtime types never match. -/
def jsEqb : JsVal → JsVal → Bool
  | JsVal.num a, JsVal.num b => a = b
  | JsVal.str a, JsVal.str b => a = b
  | _, _ => false

/-- Modelled from the spec: the calendar-date strings accepted by the
JavaScript `Date` constructor.  We model a parseable calendar date as a
nonempty string of digits and dashes containing at least one digit
(covering the `YYYY-MM-DD` forms the API receives); anything else makes
`new Date(x).toISOString()` throw. -/
def isDateString (s : String) : Bool :=
  !(s.data = []) && s.data.any Char.isDigit &&
    s.data.all (fun c => c.isDigit || c = '-')

/-- Modelled `new Date(x).toISOString()`: `some iso` when the value parses
as a date (we normalise a parseable date string to itself), `none` when the
`Date` constructor yields an invalid date and `toISOString` throws. -/
def dateToISO : JsVal → Option String
  | JsVal.str s => if isDateString s then some s else none
  | _ => none

/-- A ticket record, owned by the ticket subsystem and joined into queue
reads via the `ticket` relation. -/
structure Ticket where
  id : Nat
  patientName : String
deriving DecidableEq, Repr

/-- One row of the `queue` table: scope fields (doctorId, appointmentDate
as ISO string, hospitalId), position, the pending flag and the ticket link. -/
structure QueueEntry where
  doctorId : Int
  appointmentDate : String
  hospitalId : JsVal
  position : Int
  pending : Bool
  ticketId : Nat
deriving DecidableEq, Repr

/-- One row of the `futureReference` table, created by
`createFutureAppointment`. -/
structure FutureReference where
  doctorId : JsVal
  patientId : JsVal
  futureAppointmentDate : String
  notes : JsVal
deriving DecidableEq, Repr

/-- The persistent store: the `queue` table, the `ticket` table and the
`futureReference` table. -/
structure DB where
  queue : List QueueEntry
  tickets : List Ticket
  futureRefs : List FutureReference
deriving DecidableEq, Repr

/-- The request data a queue operation reads: `doctorId` from params or
query, `position` from query (used by delete and mark-pending), and
`appointmentDate` / `hospitalId` from the JSON body. -/
structure QueueRequest where
  doctorId : JsVal
  position : JsVal
  appointmentDate : JsVal
  hospitalId : JsVal
deriving DecidableEq, Repr

/-- The request body of `createFutureAppointment`: doctorId, patientId,
nextdate and notes, all taken directly from the JSON body. -/
structure FutureRequest where
  doctorId : JsVal
  patientId : JsVal
  nextdate : JsVal
  notes : JsVal
deriving DecidableEq, Repr

/-- Modelled from the spec: the zod schema `queueRequest` from
`QueueServiceTypes` (not part of the given sources) validates the request
body before any store access, rejecting structurally invalid input (wrong
types, missing scope fields).  We model it as: `appointmentDate` must be a
parseable calendar-date string and `hospitalId` must be a present
string-or-number value. -/
def queueRequestValid (r : QueueRequest) : Bool :=
  (dateToISO r.appointmentDate).isSome &&
    (match r.hospitalId with
      | JsVal.str _ => true
      | JsVal.num _ => true
      | _ => false)

/-- The JSON responses the controllers send. -/
inductive ApiResponse where
  | invalidRequest
  | queueList (rows : List (QueueEntry × Option Ticket))
  | positionResult (p : Option Int)
  | totalResult (n : Nat)
  | successMessage (m : String)
  | created (f : FutureReference)
  | serverError (m : String)
deriving DecidableEq, Repr

/-- The HTTP status each response is sent with. -/
def ApiResponse.status : ApiResponse → Nat
  | ApiResponse.invalidRequest => 400
  | ApiResponse.queueList _ => 200
  | ApiResponse.positionResult _ => 200
  | ApiResponse.totalResult _ => 200
  | ApiResponse.successMessage _ => 200
  | ApiResponse.created _ => 201
  | ApiResponse.serverError _ => 500

/-- The Prisma `include: { ticket: true }` join: the ticket row related to
a queue entry. -/
def findTicket (db : DB) (tid : Nat) : Option Ticket :=
  db.tickets.find? (fun t => t.id = tid)

/-- The `where` clause shared by getDoctorQueue, getPatientQueuePosition,
getQueueTotal and deleteQueueEntry: `doctorId: Number(doctorId)`,
`appointmentDate: iso`, `hospitalId` (uncoerced). -/
def whereKey (docId : JsVal) (iso : String) (hosp : JsVal) (e : QueueEntry) : Bool :=
  jsEqb (JsVal.num e.doctorId) (jsNumber docId) &&
    e.appointmentDate = iso && jsEqb e.hospitalId hosp

/-- The `where` clause of markQueueEntryPending, which in addition coerces
the hospital id: `hospitalId: Number(hospitalId)`. -/
def whereKeyNumHosp (docId : JsVal) (iso : String) (hosp : JsVal) (e : QueueEntry) : Bool :=
  jsEqb (JsVal.num e.doctorId) (jsNumber docId) &&
    e.appointmentDate = iso && jsEqb e.hospitalId (jsNumber hosp)

/-- The `position: Number(position)` clause of deleteQueueEntry and
markQueueEntryPending. -/
def wherePos (pos : JsVal) (e : QueueEntry) : Bool :=
  jsEqb (JsVal.num e.position) (jsNumber pos)

/-- The rows a key-scoped read targets: the `findMany` filter of
getDoctorQueue and getQueueTotal. -/
def keyRows (r : QueueRequest) (iso : String) (db : DB) : List QueueEntry :=
  db.queue.filter (whereKey r.doctorId iso r.hospitalId)

/-- The rows getPatientQueuePosition targets: key rows with `pending: false`. -/
def nonPendingRows (r : QueueRequest) (iso : String) (db : DB) : List QueueEntry :=
  db.queue.filter (fun e => whereKey r.doctorId iso r.hospitalId e && !e.pending)

/-- The full `where` clause of deleteQueueEntry: key plus position. -/
def delMatch (r : QueueRequest) (iso : String) (e : QueueEntry) : Bool :=
  whereKey r.doctorId iso r.hospitalId e && wherePos r.position e

/-- The full `where` clause of markQueueEntryPending: key (with coerced
hospital id) plus position. -/
def pendMatch (r : QueueRequest) (iso : String) (e : QueueEntry) : Bool :=
  whereKeyNumHosp r.doctorId iso r.hospitalId e && wherePos r.position e

/-- Ordering of queue rows by `position`, the Prisma `orderBy position asc`. -/
def posLE (a b : QueueEntry) : Prop := a.position ≤ b.position

instance : DecidableRel posLE :=
  fun a b => inferInstanceAs (Decidable (a.position ≤ b.position))

instance : IsTotal QueueEntry posLE :=
  ⟨fun a b => Int.le_total a.position b.position⟩

instance : IsTrans QueueEntry posLE :=
  ⟨fun _ _ _ hab hbc => le_trans hab hbc⟩

/-- `getDoctorQueue`: validate the body, then `findMany` the queue rows of
the requested doctor/date/hospital ordered by position ascending with the
ticket relation included, and send them; the state is read, never written. -/
def getDoctorQueue (r : QueueRequest) (db : DB) : DB × ApiResponse :=
  if queueRequestValid r then
    match dateToISO r.appointmentDate with
    | none => (db, ApiResponse.serverError "Can't retrieve Queue data")
    | some iso =>
        let sorted := (keyRows r iso db).insertionSort posLE
        (db, ApiResponse.queueList (sorted.map (fun e => (e, findTicket db e.ticketId))))
  else (db, ApiResponse.invalidRequest)

/-- `getPatientQueuePosition`: validate the body, `findMany` the positions
of non-pending rows of the key ordered ascending, and send the first one
(or nothing when there is none). -/
def getPatientQueuePosition (r : QueueRequest) (db : DB) : DB × ApiResponse :=
  if queueRequestValid r then
    match dateToISO r.appointmentDate with
    | none => (db, ApiResponse.serverError "Can't retrieve Queue status data")
    | some iso =>
        let sorted := (nonPendingRows r iso db).insertionSort posLE
        (db, ApiResponse.positionResult (sorted.head?.map (fun e => e.position)))
  else (db, ApiResponse.invalidRequest)

/-- `getQueueTotal`: validate the body, `findMany` all rows of the key and
send their count. -/
def getQueueTotal (r : QueueRequest) (db : DB) : DB × ApiResponse :=
  if queueRequestValid r then
    match dateToISO r.appointmentDate with
    | none => (db, ApiResponse.serverError "Can't retrieve Queue status data")
    | some iso => (db, ApiResponse.totalResult (keyRows r iso db).length)
  else (db, ApiResponse.invalidRequest)

/-- `deleteQueueEntry`: validate the body, then `deleteMany` the queue rows
matching doctor/date/hospital and `position: Number(position)`; always
answers with a success message. -/
def deleteQueueEntry (r : QueueRequest) (db : DB) : DB × ApiResponse :=
  if queueRequestValid r then
    match dateToISO r.appointmentDate with
    | none => (db, ApiResponse.serverError "Can't delete Queue status data")
    | some iso =>
        let keep := db.queue.filter (fun e => !delMatch r iso e)
        (DB.mk keep db.tickets db.futureRefs,
          ApiResponse.successMessage "Queue deleted successfully")
  else (db, ApiResponse.invalidRequest)

/-- Setting the pending flag of a queue row, the `data: { pending: true }`
patch of `updateMany`. -/
def markTrue (e : QueueEntry) : QueueEntry :=
  QueueEntry.mk e.doctorId e.appointmentDate e.hospitalId e.position true e.ticketId

/-- The row-wise effect of `updateMany`: rows matching the filter receive
the patch, all other rows are kept as they are. -/
def condMark (c : QueueEntry → Bool) (e : QueueEntry) : QueueEntry :=
  if c e then markTrue e else e

/-- `markQueueEntryPending`: validate the body, then `updateMany` with
`data: { pending: true }` on the rows matching doctor/date, the coerced
`hospitalId: Number(hospitalId)` and `position: Number(position)`; always
answers with a success message. -/
def markQueueEntryPending (r : QueueRequest) (db : DB) : DB × ApiResponse :=
  if queueRequestValid r then
    match dateToISO r.appointmentDate with
    | none => (db, ApiResponse.serverError "Can't update Queue status data")
    | some iso =>
        let upd := db.queue.map (condMark (pendMatch r iso))
        (DB.mk upd db.tickets db.futureRefs,
          ApiResponse.successMessage "Queue entry marked as pending successfully")
  else (db, ApiResponse.invalidRequest)

/-- `createFutureAppointment`: no validation; `new Date(nextdate)` is
normalised (throwing into the catch-all when unparseable, before the store
is reached), then a futureReference row is created with doctorId, patientId
and notes taken from the body unchanged. -/
def createFutureAppointment (r : FutureRequest) (db : DB) : DB × ApiResponse :=
  match dateToISO r.nextdate with
  | none => (db, ApiResponse.serverError "Server error")
  | some iso =>
      let f := FutureReference.mk r.doctorId r.patientId iso r.notes
      (DB.mk db.queue db.tickets (db.futureRefs ++ [f]), ApiResponse.created f)

/-- The operations the program offers over the store. -/
inductive Op where
  | list (r : QueueRequest)
  | current (r : QueueRequest)
  | total (r : QueueRequest)
  | remove (r : QueueRequest)
  | markPending (r : QueueRequest)
  | createFuture (r : FutureRequest)
deriving DecidableEq, Repr

/-- The state transformation of one operation. -/
def applyOp : Op → DB → DB
  | Op.list r, db => (getDoctorQueue r db).1
  | Op.current r, db => (getPatientQueuePosition r db).1
  | Op.total r, db => (getQueueTotal r db).1
  | Op.remove r, db => (deleteQueueEntry r db).1
  | Op.markPending r, db => (markQueueEntryPending r db).1
  | Op.createFuture r, db => (createFutureAppointment r db).1

/-- The state after a sequence of operations. -/
def applyOps (ops : List Op) (db : DB) : DB :=
  ops.foldl (fun s o => applyOp o s) db

/-! ### The socket broadcaster (src/server/socket.ts) -/

/-- The named events `io.emit` broadcasts to every connected client. -/
inductive SocketEvent where
  | patientRequest (d : JsVal)
  | fetchTicket
  | userTicket (d : JsVal)
  | doctorFetchQueue
  | chatMessage (m : String)
deriving DecidableEq, Repr

/-- The messages a connected client can send to the server. -/
inductive ClientMessage where
  | bookAppointment (d : JsVal)
  | sendTicketToUser (d : JsVal)
  | doctorFetchQueue
  | chatMessage (m : String)
deriving DecidableEq, Repr

/-- The handler of `initializeSocket`: the list of events `io.emit`
broadcasts, in order, in reaction to one incoming client message. -/
def handleClientMessage : ClientMessage → List SocketEvent
  | ClientMessage.bookAppointment d => [SocketEvent.patientRequest d]
  | ClientMessage.sendTicketToUser d => [SocketEvent.fetchTicket, SocketEvent.userTicket d]
  | ClientMessage.doctorFetchQueue => [SocketEvent.doctorFetchQueue]
  | ClientMessage.chatMessage m => [SocketEvent.chatMessage m]

/-- `io.emit` delivery: a currently-connected subscriber receives every
broadcast event, in order; a disconnected one receives nothing. -/
def deliveredTo (subs : List Nat) (m : ClientMessage) (sub : Nat) : List SocketEvent :=
  if sub ∈ subs then handleClientMessage m else []

/-! ### Vocabulary for the stated properties -/

/-- The QueueKey-plus-position identity of a stored entry: its scope fields
and its position, compared as stored. -/
def entryAtPos (kd : Int) (kdate : String) (khosp : JsVal) (p : Int) (e : QueueEntry) : Prop :=
  e.doctorId = kd ∧ e.appointmentDate = kdate ∧ e.hospitalId = khosp ∧ e.position = p

instance (kd kdate khosp p e) : Decidable (entryAtPos kd kdate khosp p e) :=
  inferInstanceAs (Decidable (_ ∧ _ ∧ _ ∧ _))

/-- Two stored entries belong to the same QueueKey. -/
def sameKey (a b : QueueEntry) : Prop :=
  a.doctorId = b.doctorId ∧ a.appointmentDate = b.appointmentDate ∧
    a.hospitalId = b.hospitalId

instance (a b) : Decidable (sameKey a b) :=
  inferInstanceAs (Decidable (_ ∧ _ ∧ _))

/-- Invariant I1: no two live entries of the same QueueKey share a position. -/
def uniquePositions (l : List QueueEntry) : Prop :=
  l.Pairwise (fun a b => sameKey a b → a.position ≠ b.position)

instance (l : List QueueEntry) : Decidable (uniquePositions l) :=
  inferInstanceAs
    (Decidable (l.Pairwise (fun a b => sameKey a b → a.position ≠ b.position)))

/-- Every stored entry at the given key and position is marked pending. -/
def pendingAt (kd : Int) (kdate : String) (khosp : JsVal) (p : Int) (db : DB) : Prop :=
  ∀ e ∈ db.queue, entryAtPos kd kdate khosp p e → e.pending = true

instance (kd : Int) (kdate : String) (khosp : JsVal) (p : Int) (db : DB) :
    Decidable (pendingAt kd kdate khosp p db) :=
  inferInstanceAs
    (Decidable (∀ e ∈ db.queue, entryAtPos kd kdate khosp p e → e.pending = true))

/-- The queue rows carried by a response (empty for non-list responses). -/
def rowsOf : ApiResponse → List (QueueEntry × Option Ticket)
  | ApiResponse.queueList rows => rows
  | _ => []

/-! ### Basic lemmas about the embedded operations -/

/-- A request that passes validation carries a parseable appointment date. -/
theorem valid_hasISO (r : QueueRequest) (hv : queueRequestValid r = true) :
    ∃ iso, dateToISO r.appointmentDate = some iso := by
  unfold queueRequestValid at hv
  rw [Bool.and_eq_true] at hv
  exact Option.isSome_iff_exists.mp hv.1

/-- getDoctorQueue never writes the store. -/
theorem getDoctorQueue_state (r : QueueRequest) (db : DB) :
    (getDoctorQueue r db).1 = db := by
  unfold getDoctorQueue
  split
  · split <;> rfl
  · rfl

/-- getPatientQueuePosition never writes the store. -/
theorem getPatientQueuePosition_state (r : QueueRequest) (db : DB) :
    (getPatientQueuePosition r db).1 = db := by
  unfold getPatientQueuePosition
  split
  · split <;> rfl
  · rfl

/-- getQueueTotal never writes the store. -/
theorem getQueueTotal_state (r : QueueRequest) (db : DB) :
    (getQueueTotal r db).1 = db := by
  unfold getQueueTotal
  split
  · split <;> rfl
  · rfl

/-- deleteQueueEntry only ever removes queue rows. -/
theorem deleteQueueEntry_queue_sublist (r : QueueRequest) (db : DB) :
    List.Sublist (deleteQueueEntry r db).1.queue db.queue := by
  unfold deleteQueueEntry
  split
  · split
    · exact List.Sublist.refl _
    · exact List.filter_sublist _
  · exact List.Sublist.refl _

/-- createFutureAppointment never touches the queue table. -/
theorem createFutureAppointment_queue (r : FutureRequest) (db : DB) :
    (createFutureAppointment r db).1.queue = db.queue := by
  unfold createFutureAppointment
  split <;> rfl

/-- A row runs through `condMark` either unchanged or patched to pending. -/
theorem condMark_cases (c : QueueEntry → Bool) (e : QueueEntry) :
    condMark c e = e ∨ condMark c e = markTrue e := by
  unfold condMark
  split
  · exact Or.inr rfl
  · exact Or.inl rfl

/-- `condMark` keeps the scope fields of a row. -/
theorem condMark_sameKey (c : QueueEntry → Bool) (a b : QueueEntry) :
    sameKey (condMark c a) (condMark c b) ↔ sameKey a b := by
  unfold condMark markTrue sameKey
  split <;> split <;> simp

/-- `condMark` keeps the position of a row. -/
theorem condMark_position (c : QueueEntry → Bool) (e : QueueEntry) :
    (condMark c e).position = e.position := by
  unfold condMark markTrue
  split <;> rfl

/-- The patch applied by markQueueEntryPending sets pending. -/
theorem markTrue_pending (e : QueueEntry) : (markTrue e).pending = true := rfl

/-- The patch keeps the key and position of a row. -/
theorem markTrue_entryAtPos (kd : Int) (kdate : String) (khosp : JsVal) (p : Int)
    (e : QueueEntry) :
    entryAtPos kd kdate khosp p (markTrue e) ↔ entryAtPos kd kdate khosp p e := by
  unfold entryAtPos markTrue
  simp

/-- Every row of the store after markQueueEntryPending is a row of the store
before it, possibly patched to pending. -/
theorem markQueueEntryPending_queue_mem (r : QueueRequest) (db : DB) (e : QueueEntry)
    (he : e ∈ (markQueueEntryPending r db).1.queue) :
    e ∈ db.queue ∨ ∃ e0, e0 ∈ db.queue ∧ e = markTrue e0 := by
  unfold markQueueEntryPending at he
  split at he
  · split at he
    · exact Or.inl he
    · rcases List.mem_map.mp he with ⟨e0, he0, rfl⟩
      rcases condMark_cases _ e0 with h | h
      · rw [h]; exact Or.inl he0
      · rw [h]; exact Or.inr ⟨e0, he0, rfl⟩
  · exact Or.inl he

/-- Every row of the store after any operation is a row of the store before
it, possibly patched to pending. -/
theorem applyOp_queue_mem (o : Op) (db : DB) (e : QueueEntry)
    (he : e ∈ (applyOp o db).queue) :
    e ∈ db.queue ∨ ∃ e0, e0 ∈ db.queue ∧ e = markTrue e0 := by
  cases o with
  | list r => rw [show applyOp (Op.list r) db = (getDoctorQueue r db).1 from rfl,
      getDoctorQueue_state] at he; exact Or.inl he
  | current r => rw [show applyOp (Op.current r) db = (getPatientQueuePosition r db).1 from rfl,
      getPatientQueuePosition_state] at he; exact Or.inl he
  | total r => rw [show applyOp (Op.total r) db = (getQueueTotal r db).1 from rfl,
      getQueueTotal_state] at he; exact Or.inl he
  | remove r => exact Or.inl ((deleteQueueEntry_queue_sublist r db).subset he)
  | markPending r => exact markQueueEntryPending_queue_mem r db e he
  | createFuture r => rw [show applyOp (Op.createFuture r) db = (createFutureAppointment r db).1 from rfl,
      createFutureAppointment_queue] at he; exact Or.inl he

/-- Filtering twice with the same predicate filters once. -/
theorem filter_twice {α : Type} (p : α → Bool) (l : List α) :
    (l.filter p).filter p = l.filter p := by
  induction l with
  | nil => rfl
  | cons a l ih =>
    by_cases h : p a
    · simp [List.filter_cons, h, ih]
    · simp [List.filter_cons, h, ih]

/-- Rows returned by getDoctorQueue come from the queue table. -/
theorem rowsOf_getDoctorQueue_mem (r : QueueRequest) (db : DB)
    (row : QueueEntry × Option Ticket)
    (hrow : row ∈ rowsOf (getDoctorQueue r db).2) : row.1 ∈ db.queue := by
  unfold getDoctorQueue at hrow
  split at hrow
  · split at hrow
    · simp [rowsOf] at hrow
    · simp only [rowsOf] at hrow
      rcases List.mem_map.mp hrow with ⟨e, he, rfl⟩
      have he2 : e ∈ keyRows r _ db := (List.perm_insertionSort posLE _).subset he
      unfold keyRows at he2
      exact (List.mem_filter.mp he2).1
  · simp [rowsOf] at hrow

/-! ### Concrete fixtures used by the claim witnesses -/

/-- A ticket on file. -/
def wTicket : Ticket := Ticket.mk 1 "Asha"

/-- A waiting entry at position 0 of the queue (doctor 5, 2024-10-10,
hospital "H1"). -/
def wEntryA : QueueEntry := QueueEntry.mk 5 "2024-10-10" (JsVal.str "H1") 0 false 1

/-- A waiting entry at position 2 of the same queue. -/
def wEntryC : QueueEntry := QueueEntry.mk 5 "2024-10-10" (JsVal.str "H1") 2 false 2

/-- A pending entry at position 1 of the same queue. -/
def wEntryB : QueueEntry := QueueEntry.mk 5 "2024-10-10" (JsVal.str "H1") 1 true 3

/-- A store holding the three entries out of order plus the ticket. -/
def wDB : DB := DB.mk [wEntryC, wEntryA, wEntryB] [wTicket] []

/-- A well-formed request aimed at position 0 of that queue. -/
def wReq : QueueRequest :=
  QueueRequest.mk (JsVal.str "5") (JsVal.str "0") (JsVal.str "2024-10-10") (JsVal.str "H1")

/-- A structurally invalid request: both body scope fields are missing. -/
def wBadReq : QueueRequest :=
  QueueRequest.mk (JsVal.str "5") (JsVal.str "0") JsVal.undef JsVal.undef

/-! ### The claims -/

/-- C1: the code is at odds with the claim.  On the store holding the
single waiting entry of the queue (doctor 5, 2024-10-10, hospital "H1") at
position 0, a valid markPending request for that key and position reports
success yet leaves the store unchanged — the entry getDoctorQueue returns
at position 0 keeps `pending = false` — because markQueueEntryPending,
alone among the queue operations, coerces the hospital id with `Number`,
and `Number("H1")` is NaN, which matches no row. -/
theorem markPending_misses_listed_entry :
    queueRequestValid wReq = true ∧
    (getDoctorQueue wReq (DB.mk [wEntryA] [wTicket] [])).2 =
      ApiResponse.queueList [(wEntryA, some wTicket)] ∧
    wEntryA.position = 0 ∧ wEntryA.pending = false ∧
    markQueueEntryPending wReq (DB.mk [wEntryA] [wTicket] []) =
      (DB.mk [wEntryA] [wTicket] [],
        ApiResponse.successMessage "Queue entry marked as pending successfully") := by
  decide

/-- The rejection behaviour claimed for every key-scoped operation: a
validation failure answers 400 Invalid request and leaves the store
untouched. -/
def rejectsInvalid (r : QueueRequest) (db : DB) : Prop :=
  getDoctorQueue r db = (db, ApiResponse.invalidRequest) ∧
  getPatientQueuePosition r db = (db, ApiResponse.invalidRequest) ∧
  getQueueTotal r db = (db, ApiResponse.invalidRequest) ∧
  deleteQueueEntry r db = (db, ApiResponse.invalidRequest) ∧
  markQueueEntryPending r db = (db, ApiResponse.invalidRequest)

/-- C8: every one of the five key-scoped operations rejects a structurally
invalid request with the validation error before reading or writing the
store, which is left unchanged. -/
theorem invalid_request_rejected (r : QueueRequest) (db : DB)
    (hv : queueRequestValid r = false) : rejectsInvalid r db := by
  unfold rejectsInvalid getDoctorQueue getPatientQueuePosition getQueueTotal
    deleteQueueEntry markQueueEntryPending
  simp [hv]

/-- C8 witness: the rejection at a concrete malformed request. -/
theorem invalid_request_rejected_witness : rejectsInvalid wBadReq wDB :=
  invalid_request_rejected wBadReq wDB (by decide)

/-- What a connected subscriber receives when a ticket is sent to a user. -/
def ticketBroadcast (subs : List Nat) (d : JsVal) (sub : Nat) : Prop :=
  deliveredTo subs (ClientMessage.sendTicketToUser d) sub =
    [SocketEvent.fetchTicket, SocketEvent.userTicket d]

/-- C9: on a sendTicketToUser message with payload d, every
currently-connected subscriber receives exactly two events: fetch-ticket
with no payload, then UserTicket carrying d. -/
theorem sendTicketToUser_two_events (subs : List Nat) (d : JsVal) (sub : Nat)
    (hs : sub ∈ subs) : ticketBroadcast subs d sub := by
  unfold ticketBroadcast deliveredTo
  simp [hs, handleClientMessage]

/-- C9 witness: the broadcast delivered to a concrete connected subscriber. -/
theorem sendTicketToUser_two_events_witness : ticketBroadcast [7, 9] (JsVal.str "t42") 9 :=
  sendTicketToUser_two_events [7, 9] (JsVal.str "t42") 9 (by decide)

/-- The behaviour claimed of createFutureAppointment: no validation error
is ever produced; an unparseable date answers the one generic server error
with the store untouched; otherwise doctorId, patientId and notes reach the
created record unchanged. -/
def futureCreateSpec (r : FutureRequest) (db : DB) : Prop :=
  (createFutureAppointment r db).2 ≠ ApiResponse.invalidRequest ∧
  (match dateToISO r.nextdate with
    | none => createFutureAppointment r db = (db, ApiResponse.serverError "Server error")
    | some iso =>
        createFutureAppointment r db =
          (DB.mk db.queue db.tickets
              (db.futureRefs ++ [FutureReference.mk r.doctorId r.patientId iso r.notes]),
            ApiResponse.created (FutureReference.mk r.doctorId r.patientId iso r.notes)))

/-- C10: createFutureAppointment never validates its body — doctorId,
patientId and notes are stored verbatim — and its only failure mode is the
generic server error, raised before the store is written when the date
cannot be parsed. -/
theorem createFutureAppointment_no_validation (r : FutureRequest) (db : DB) :
    futureCreateSpec r db := by
  unfold futureCreateSpec createFutureAppointment
  cases h : dateToISO r.nextdate with
  | none => simp [h]
  | some iso => simp [h]

/-- A future-appointment body whose nextdate JavaScript cannot parse. -/
def wFutReq : FutureRequest :=
  FutureRequest.mk (JsVal.num 5) (JsVal.num 11) (JsVal.str "soon") (JsVal.str "resume")

/-- C10 witness: the unparseable date "soon" yields the generic server
error with the store untouched. -/
theorem createFutureAppointment_no_validation_witness : futureCreateSpec wFutReq wDB :=
  createFutureAppointment_no_validation wFutReq wDB

/-- The behaviour claimed of deletion: applying it a second time changes
nothing more, it always answers the success message, and when no row of the
key sits at the requested position it changes nothing at all while still
answering success. -/
def removeIdem (r : QueueRequest) (db : DB) : Prop :=
  (deleteQueueEntry r (deleteQueueEntry r db).1).1 = (deleteQueueEntry r db).1 ∧
  (deleteQueueEntry r db).2 = ApiResponse.successMessage "Queue deleted successfully" ∧
  ∃ iso, dateToISO r.appointmentDate = some iso ∧
    ((∀ e ∈ db.queue, delMatch r iso e = false) →
      deleteQueueEntry r db = (db, ApiResponse.successMessage "Queue deleted successfully"))

/-- C6: deleteQueueEntry is idempotent, and a delete aimed at a position no
row of the key occupies succeeds as a no-op. -/
theorem removeEntry_idempotent (r : QueueRequest) (db : DB)
    (hv : queueRequestValid r = true) : removeIdem r db := by
  obtain ⟨iso, hiso⟩ := valid_hasISO r hv
  unfold removeIdem
  refine ⟨?_, ?_, iso, hiso, ?_⟩
  · simp [deleteQueueEntry, hv, hiso, filter_twice]
  · simp [deleteQueueEntry, hv, hiso]
  · intro h
    have hkeep : db.queue.filter (fun e => !delMatch r iso e) = db.queue :=
      List.filter_eq_self.mpr (fun a ha => by simp [h a ha])
    simp [deleteQueueEntry, hv, hiso, hkeep]

/-- C6 witness: deleting position 0 twice, and deleting a vacant position,
on the concrete store. -/
theorem removeEntry_idempotent_witness : removeIdem wReq wDB :=
  removeEntry_idempotent wReq wDB (by decide)

/-- The frame claimed of deletion: only rows of the addressed key at the
addressed position disappear; every other row survives verbatim — same
position, same pending flag — and the other tables are untouched. -/
def removeFrame (r : QueueRequest) (db : DB) : Prop :=
  ∃ iso, dateToISO r.appointmentDate = some iso ∧
    List.Sublist (deleteQueueEntry r db).1.queue db.queue ∧
    (∀ e, e ∈ (deleteQueueEntry r db).1.queue ↔ e ∈ db.queue ∧ delMatch r iso e = false) ∧
    (∀ e ∈ db.queue, whereKey r.doctorId iso r.hospitalId e = false →
      e ∈ (deleteQueueEntry r db).1.queue) ∧
    (deleteQueueEntry r db).1.tickets = db.tickets ∧
    (deleteQueueEntry r db).1.futureRefs = db.futureRefs

/-- C7: deleteQueueEntry removes exactly the rows matching key and
position; the remaining rows keep their order, positions and pending flags
(no renumbering), rows of other keys are untouched, and so are the ticket
and futureReference tables. -/
theorem removeEntry_frame (r : QueueRequest) (db : DB)
    (hv : queueRequestValid r = true) : removeFrame r db := by
  obtain ⟨iso, hiso⟩ := valid_hasISO r hv
  refine ⟨iso, hiso, ?_, ?_, ?_, ?_, ?_⟩
  · exact deleteQueueEntry_queue_sublist r db
  · intro e
    simp [deleteQueueEntry, hv, hiso, List.mem_filter]
  · intro e he hk
    have : delMatch r iso e = false := by
      unfold delMatch
      simp [hk]
    simp [deleteQueueEntry, hv, hiso, List.mem_filter, he, this]
  · simp [deleteQueueEntry, hv, hiso]
  · simp [deleteQueueEntry, hv, hiso]

/-- C7 witness: the frame of a concrete deletion at position 0. -/
theorem removeEntry_frame_witness : removeFrame wReq wDB :=
  removeEntry_frame wReq wDB (by decide)

/-- The behaviour claimed of the current-position read: the store is not
written, and the reported value is the smallest position among the key's
non-pending rows, or nothing when the key has none. -/
def currentPositionMin (r : QueueRequest) (db : DB) : Prop :=
  ∃ iso, dateToISO r.appointmentDate = some iso ∧
    (getPatientQueuePosition r db).1 = db ∧
    ((nonPendingRows r iso db = [] ∧
        (getPatientQueuePosition r db).2 = ApiResponse.positionResult none) ∨
      (∃ m, (getPatientQueuePosition r db).2 = ApiResponse.positionResult (some m) ∧
        (∃ e ∈ nonPendingRows r iso db, e.position = m) ∧
        ∀ e ∈ nonPendingRows r iso db, m ≤ e.position))

/-- C2: getPatientQueuePosition returns the minimum position among the
key's rows with `pending = false`, and nothing when there is no such row. -/
theorem currentPosition_is_min (r : QueueRequest) (db : DB)
    (hv : queueRequestValid r = true) : currentPositionMin r db := by
  obtain ⟨iso, hiso⟩ := valid_hasISO r hv
  refine ⟨iso, hiso, getPatientQueuePosition_state r db, ?_⟩
  cases hs : (nonPendingRows r iso db).insertionSort posLE with
  | nil =>
    left
    have hperm := List.perm_insertionSort posLE (nonPendingRows r iso db)
    rw [hs] at hperm
    refine ⟨hperm.symm.eq_nil, ?_⟩
    simp [getPatientQueuePosition, hv, hiso, hs]
  | cons x xs =>
    right
    have hperm := List.perm_insertionSort posLE (nonPendingRows r iso db)
    rw [hs] at hperm
    have hsorted : List.Sorted posLE (x :: xs) := by
      rw [← hs]
      exact List.sorted_insertionSort posLE _
    refine ⟨x.position, ?_, ⟨x, hperm.subset (List.mem_cons_self x xs), rfl⟩, ?_⟩
    · simp [getPatientQueuePosition, hv, hiso, hs]
    · intro e he
      rcases List.mem_cons.mp (hperm.symm.subset he) with h | h
      · rw [h]
      · exact List.rel_of_sorted_cons hsorted e h

/-- C2 witness: the minimum over a concrete store whose non-pending rows of
the key sit at positions 2 and 0. -/
theorem currentPosition_is_min_witness : currentPositionMin wReq wDB :=
  currentPosition_is_min wReq wDB (by decide)

/-- The behaviour claimed of the queue read: the store is not written, and
the answer lists exactly the rows of the key, ascending by position, each
joined with its linked ticket. -/
def listQueueRead (r : QueueRequest) (db : DB) : Prop :=
  ∃ iso, dateToISO r.appointmentDate = some iso ∧
  ∃ rows, getDoctorQueue r db = (db, ApiResponse.queueList rows) ∧
    List.Perm (rows.map Prod.fst) (keyRows r iso db) ∧
    List.Sorted posLE (rows.map Prod.fst) ∧
    ∀ row ∈ rows, row.2 = findTicket db row.1.ticketId

/-- C3: getDoctorQueue is a pure read answering exactly the key's rows in
ascending position order with their tickets joined in. -/
theorem listQueue_read (r : QueueRequest) (db : DB)
    (hv : queueRequestValid r = true) : listQueueRead r db := by
  obtain ⟨iso, hiso⟩ := valid_hasISO r hv
  have hmap : ∀ l : List QueueEntry,
      (l.map (fun e => (e, findTicket db e.ticketId))).map Prod.fst = l := by
    intro l
    have hid : (Prod.fst ∘ fun e : QueueEntry => (e, findTicket db e.ticketId)) = id := rfl
    rw [List.map_map, hid, List.map_id]
  refine ⟨iso, hiso,
    ((keyRows r iso db).insertionSort posLE).map (fun e => (e, findTicket db e.ticketId)),
    ?_, ?_, ?_, ?_⟩
  · simp [getDoctorQueue, hv, hiso]
  · rw [hmap]
    exact List.perm_insertionSort posLE _
  · rw [hmap]
    exact List.sorted_insertionSort posLE _
  · intro row hrow
    rcases List.mem_map.mp hrow with ⟨e, _, rfl⟩
    rfl

/-- C3 witness: the read of the concrete three-entry store, which comes
back sorted 0, 1, 2 with the ticket joined. -/
theorem listQueue_read_witness : listQueueRead wReq wDB :=
  listQueue_read wReq wDB (by decide)

/-- C4: position uniqueness is an invariant — whenever no two rows of the
same QueueKey share a position, the state left by any operation of the
program still has no two rows of the same QueueKey sharing a position. -/
theorem uniquePositions_preserved (o : Op) (db : DB)
    (h : uniquePositions db.queue) : uniquePositions (applyOp o db).queue := by
  cases o with
  | list r =>
    rw [show applyOp (Op.list r) db = (getDoctorQueue r db).1 from rfl,
      getDoctorQueue_state]
    exact h
  | current r =>
    rw [show applyOp (Op.current r) db = (getPatientQueuePosition r db).1 from rfl,
      getPatientQueuePosition_state]
    exact h
  | total r =>
    rw [show applyOp (Op.total r) db = (getQueueTotal r db).1 from rfl,
      getQueueTotal_state]
    exact h
  | remove r => exact h.sublist (deleteQueueEntry_queue_sublist r db)
  | markPending r =>
    show uniquePositions (markQueueEntryPending r db).1.queue
    unfold markQueueEntryPending
    split
    · split
      · exact h
      · dsimp only
        unfold uniquePositions at h ⊢
        refine List.Pairwise.map _ ?_ h
        intro a b hab hk
        rw [condMark_position, condMark_position]
        exact hab ((condMark_sameKey _ a b).mp hk)
    · exact h
  | createFuture r =>
    rw [show applyOp (Op.createFuture r) db = (createFutureAppointment r db).1 from rfl]
    unfold uniquePositions
    rw [createFutureAppointment_queue]
    exact h

/-- C4 witness: preservation across a concrete mark-pending call on the
concrete store, whose three rows occupy distinct positions. -/
theorem uniquePositions_preserved_witness :
    uniquePositions (applyOp (Op.markPending wReq) wDB).queue :=
  uniquePositions_preserved (Op.markPending wReq) wDB (by decide)

/-- One operation never resets a pending flag at a given key and position. -/
theorem pendingAt_applyOp (kd : Int) (kdate : String) (khosp : JsVal) (p : Int)
    (o : Op) (db : DB) (h : pendingAt kd kdate khosp p db) :
    pendingAt kd kdate khosp p (applyOp o db) := by
  intro e he hat
  rcases applyOp_queue_mem o db e he with hmem | ⟨e0, he0, rfl⟩
  · exact h e hmem hat
  · exact markTrue_pending e0

/-- The monotonicity claimed of the pending flag: once every row at a key
and position is pending, it stays pending across any sequence of
operations, and every queue read of that key keeps showing it pending. -/
def pendingStays (kd : Int) (kdate : String) (khosp : JsVal) (p : Int)
    (db : DB) (ops : List Op) : Prop :=
  pendingAt kd kdate khosp p (applyOps ops db) ∧
  ∀ r : QueueRequest, ∀ row ∈ rowsOf (getDoctorQueue r (applyOps ops db)).2,
    entryAtPos kd kdate khosp p row.1 → row.1.pending = true

/-- C5: the pending flag is monotonic — no operation of the program ever
turns it back to false, so once the rows at a key and position are pending
every later read shows them pending. -/
theorem pending_monotonic (kd : Int) (kdate : String) (khosp : JsVal) (p : Int)
    (db : DB) (ops : List Op) (h : pendingAt kd kdate khosp p db) :
    pendingStays kd kdate khosp p db ops := by
  have hall : ∀ l : List Op, ∀ db0 : DB, pendingAt kd kdate khosp p db0 →
      pendingAt kd kdate khosp p (applyOps l db0) := by
    intro l
    induction l with
    | nil =>
      intro db0 h0
      simpa [applyOps] using h0
    | cons o t ih =>
      intro db0 h0
      have h2 := ih (applyOp o db0) (pendingAt_applyOp kd kdate khosp p o db0 h0)
      simpa [applyOps] using h2
  refine ⟨hall ops db h, ?_⟩
  intro r row hrow hat
  exact hall ops db h row.1 (rowsOf_getDoctorQueue_mem r _ row hrow) hat

/-- C5 witness: a pending row at position 1 of the concrete queue stays
pending across a mark-pending, a delete aimed at position 0 and a count. -/
theorem pending_monotonic_witness :
    pendingStays 5 "2024-10-10" (JsVal.str "H1") 1 wDB
      [Op.markPending wReq, Op.remove wReq, Op.total wReq] :=
  pending_monotonic 5 "2024-10-10" (JsVal.str "H1") 1 wDB
    [Op.markPending wReq, Op.remove wReq, Op.total wReq] (by decide)

end CareSync
